import Mathlib

/-!
Verification of the slogx level-based logging router (src/logger.go).

The embedding follows the Go source: `slog.Level` is an integer with the
standard constants (Debug = -4, Info = 0, Warn = 4, Error = 8); the
`slog.Handler` interface is a record of four operations over an explicit
handler value and an explicit sink state; a Go `error` is `Option String`
(`none` = nil).  `LevelBasedHandler`, its four methods, `New` and
`InitDefault` are transcribed from src/logger.go.  The external tint sink
is modelled only through what the spec needs: it stores its options and
output stream, filters by `opts.Level`, applies `opts.ReplaceAttr` to each
attribute and appends a rendered line to its output list.
-/

namespace Slogx

/-- slog severity constants, as in log/slog. -/
def LevelDebug : Int := -4

def LevelInfo : Int := 0

def LevelWarn : Int := 4

def LevelError : Int := 8

/-- An attribute value; `colored c v` models a tint color-wrapped value. -/
inductive AttrValue where
  | str (s : String)
  | int (n : Int)
  | colored (color : Nat) (v : AttrValue)
deriving DecidableEq

/-- A slog attribute: a key paired with a value. -/
structure Attr where
  key : String
  value : AttrValue
deriving DecidableEq

/-- A log record: severity level, message, attributes. -/
structure Record where
  level : Int
  message : String
  attrs : List Attr
deriving DecidableEq

/-- A Go error value: `none` is nil. -/
abbrev GoError := Option String

/-- The slog.Handler interface, as operations on a handler value `H` with
sink state `σ`: Enabled, Handle (state transformer returning the Go error),
WithAttrs and WithGroup (derivation of a new handler value). -/
structure HandlerOps (H σ : Type) where
  enabled : H → Int → Bool
  handle : H → Record → σ → σ × GoError
  withAttrs : H → List Attr → H
  withGroup : H → String → H

/-- LevelBasedHandler from src/logger.go: two delegate handlers. -/
structure LevelBasedHandler (H₁ H₂ : Type) where
  LowLevelHandler : H₁
  ErrorHandler : H₂

/-- Enabled: `if level >= slog.LevelError` consult ErrorHandler, else
LowLevelHandler (src/logger.go lines 19-24). -/
def LevelBasedHandler.Enabled {H₁ σ₁ H₂ σ₂ : Type}
    (ops₁ : HandlerOps H₁ σ₁) (ops₂ : HandlerOps H₂ σ₂)
    (h : LevelBasedHandler H₁ H₂) (level : Int) : Bool :=
  if LevelError ≤ level then ops₂.enabled h.ErrorHandler level
  else ops₁.enabled h.LowLevelHandler level

/-- Handle: `if r.Level >= slog.LevelError` delegate to ErrorHandler, else
to LowLevelHandler, returning the delegate's error (src/logger.go lines
26-31).  The two sink states are threaded explicitly; only the chosen
delegate's state is touched. -/
def LevelBasedHandler.Handle {H₁ σ₁ H₂ σ₂ : Type}
    (ops₁ : HandlerOps H₁ σ₁) (ops₂ : HandlerOps H₂ σ₂)
    (h : LevelBasedHandler H₁ H₂) (r : Record) (s₁ : σ₁) (s₂ : σ₂) :
    σ₁ × σ₂ × GoError :=
  if LevelError ≤ r.level then
    let res := ops₂.handle h.ErrorHandler r s₂
    (s₁, res.1, res.2)
  else
    let res := ops₁.handle h.LowLevelHandler r s₁
    (res.1, s₂, res.2)

/-- WithAttrs: a new LevelBasedHandler whose delegates are both derived
with the same attribute list (src/logger.go lines 33-38). -/
def LevelBasedHandler.WithAttrs {H₁ σ₁ H₂ σ₂ : Type}
    (ops₁ : HandlerOps H₁ σ₁) (ops₂ : HandlerOps H₂ σ₂)
    (h : LevelBasedHandler H₁ H₂) (attrs : List Attr) :
    LevelBasedHandler H₁ H₂ :=
  { LowLevelHandler := ops₁.withAttrs h.LowLevelHandler attrs
    ErrorHandler := ops₂.withAttrs h.ErrorHandler attrs }

/-- WithGroup: a new LevelBasedHandler whose delegates are both derived
with the same group name (src/logger.go lines 40-45). -/
def LevelBasedHandler.WithGroup {H₁ σ₁ H₂ σ₂ : Type}
    (ops₁ : HandlerOps H₁ σ₁) (ops₂ : HandlerOps H₂ σ₂)
    (h : LevelBasedHandler H₁ H₂) (name : String) :
    LevelBasedHandler H₁ H₂ :=
  { LowLevelHandler := ops₁.withGroup h.LowLevelHandler name
    ErrorHandler := ops₂.withGroup h.ErrorHandler name }

/-- The recording stub handler of src/logger_test.go: always enabled,
Handle appends the record to its list and returns nil, WithAttrs and
WithGroup return the receiver. -/
def stubOps : HandlerOps Unit (List Record) where
  enabled := fun _ _ => true
  handle := fun _ r recs => (recs ++ [r], none)
  withAttrs := fun u _ => u
  withGroup := fun u _ => u

/-- A LevelBasedHandler over two recording stubs. -/
def stubLBH : LevelBasedHandler Unit Unit := ⟨(), ()⟩

/-- Which sink Handle dispatches to at a given level, observed by running
Handle on recording stubs and seeing which list received the record. -/
inductive Sink where
  | low
  | high
deriving DecidableEq

/-- The sink selected by the Handle routing rule for a level, read off from
an actual Handle run on recording stubs. -/
def handleSelects (level : Int) : Sink :=
  let res := stubLBH.Handle stubOps stubOps ⟨level, "", []⟩ [] []
  if res.1.isEmpty then Sink.high else Sink.low

/-- tint.Options, the configuration snapshot: the fields used by the repo. -/
structure Options where
  AddSource : Bool
  Level : Int
  ReplaceAttr : Option (List String → Attr → Attr)
  NoColor : Bool
  TimeFormat : String

/-- The Go zero value of tint.Options. -/
def Options.zero : Options :=
  { AddSource := false, Level := 0, ReplaceAttr := none, NoColor := false
    TimeFormat := "" }

/-- tint.Attr(color, a): the attribute with its value color-wrapped. -/
def tintAttr (color : Nat) (a : Attr) : Attr :=
  ⟨a.key, AttrValue.colored color a.value⟩

/-- An output stream; the repo only ever uses standard error. -/
inductive Stream where
  | stderr
  | stdout
deriving DecidableEq

/-- A line rendered by the tint sink model: level, message, the attributes
after ReplaceAttr, and whether call-site info was captured. -/
structure Rendered where
  level : Int
  message : String
  attrs : List Attr
  source : Bool
deriving DecidableEq

/-- The state of a concrete tint handler: its stream, its options snapshot,
and the groups and attributes accumulated through derivation. -/
structure TintHandler where
  stream : Stream
  opts : Options
  groups : List String
  preAttrs : List Attr

/-- tint.NewHandler(stream, opts): a fresh handler with no decoration. -/
def tintNewHandler (stream : Stream) (opts : Options) : TintHandler :=
  { stream := stream, opts := opts, groups := [], preAttrs := [] }

/-- Apply an optional ReplaceAttr function, the identity when absent. -/
def applyReplace (f : Option (List String → Attr → Attr))
    (groups : List String) (a : Attr) : Attr :=
  match f with
  | some g => g groups a
  | none => a

/-- Model of the external tint sink: enabled when the level is at least
opts.Level; Handle maps every attribute through opts.ReplaceAttr, appends
one rendered line to the output list and returns nil; WithAttrs and
WithGroup accumulate decoration. -/
def tintOps : HandlerOps TintHandler (List Rendered) where
  enabled := fun h level => h.opts.Level ≤ level
  handle := fun h r out =>
    (out ++ [⟨r.level, r.message,
      (h.preAttrs ++ r.attrs).map (applyReplace h.opts.ReplaceAttr h.groups),
      h.opts.AddSource⟩], none)
  withAttrs := fun h attrs => { h with preAttrs := h.preAttrs ++ attrs }
  withGroup := fun h name => { h with groups := h.groups ++ [name] }

/-- The wrapped ReplaceAttr that New installs on the error handler: run the
user function first when present, then color the attribute red (tint color
9) when its key is then "err" or "error" (src/logger.go lines 75-84). -/
def errReplaceAttr (userReplace : Option (List String → Attr → Attr))
    (groups : List String) (a : Attr) : Attr :=
  let b := applyReplace userReplace groups a
  if b.key = "err" ∨ b.key = "error" then tintAttr 9 b else b

/-- A slog.Logger wrapping the level-based handler built by New. -/
structure Logger where
  handler : LevelBasedHandler TintHandler TintHandler

/-- New (src/logger.go lines 57-90): base options are the first non-nil
variadic argument, or the zero value; the low handler gets the base with
AddSource forced false; the error handler gets the base with AddSource
forced true and ReplaceAttr wrapped by errReplaceAttr; both write to
standard error. -/
def New (opts : List (Option Options)) : Logger :=
  let baseOpts : Options :=
    match opts with
    | some o :: _ => o
    | _ => Options.zero
  let lowOpts := { baseOpts with AddSource := false }
  let lowLevelHandler := tintNewHandler Stream.stderr lowOpts
  let errOpts := { baseOpts with
    AddSource := true
    ReplaceAttr := some (errReplaceAttr baseOpts.ReplaceAttr) }
  let errorHandler := tintNewHandler Stream.stderr errOpts
  ⟨⟨lowLevelHandler, errorHandler⟩⟩

/-- The two tint sinks' output lists. -/
structure SinkStates where
  lowOut : List Rendered
  highOut : List Rendered
deriving DecidableEq

/-- A slog.Logger emission at a level: when the handler reports the level
enabled, build the record and run Handle, otherwise do nothing; the
handler error (which slog itself discards) is surfaced for inspection. -/
def Logger.log (l : Logger) (level : Int) (msg : String) (attrs : List Attr)
    (s : SinkStates) : SinkStates × GoError :=
  if l.handler.Enabled tintOps tintOps level then
    let res := l.handler.Handle tintOps tintOps ⟨level, msg, attrs⟩ s.lowOut s.highOut
    (⟨res.1, res.2.1⟩, res.2.2)
  else (s, none)

/-- The process-wide slog default-logger state. -/
structure GlobalState where
  defaultLogger : Option Logger

/-- slog.SetDefault: install a logger as the process-wide default,
overwriting whatever was there. -/
def slogSetDefault (l : Logger) (_g : GlobalState) : GlobalState :=
  ⟨some l⟩

/-- InitDefault (src/logger.go lines 94-98): build the logger with New,
install it as the slog default, and return it. -/
def InitDefault (opts : List (Option Options)) (g : GlobalState) :
    Logger × GlobalState :=
  let logger := New opts
  (logger, slogSetDefault logger g)

/-- A caller builds a logger from its options object and afterwards
mutates that object to a new value: the pair of the already-built logger
and the caller's post-mutation options. -/
def buildThenMutate (base mutated : Options) : Logger × Options :=
  (New [some base], mutated)

/-- One decoration step: a WithAttrs or a WithGroup call. -/
inductive Deriv where
  | attrs (l : List Attr)
  | group (n : String)

/-- Apply a finite sequence of WithAttrs / WithGroup calls to a router. -/
def applyDerivs {H₁ σ₁ H₂ σ₂ : Type}
    (ops₁ : HandlerOps H₁ σ₁) (ops₂ : HandlerOps H₂ σ₂)
    (h : LevelBasedHandler H₁ H₂) : List Deriv → LevelBasedHandler H₁ H₂
  | [] => h
  | Deriv.attrs l :: ds => applyDerivs ops₁ ops₂ (h.WithAttrs ops₁ ops₂ l) ds
  | Deriv.group n :: ds => applyDerivs ops₁ ops₂ (h.WithGroup ops₁ ops₂ n) ds

/-- Apply the same sequence of derivation steps to a single delegate. -/
def applySubDerivs {H σ : Type} (ops : HandlerOps H σ) (x : H) :
    List Deriv → H
  | [] => x
  | Deriv.attrs l :: ds => applySubDerivs ops (ops.withAttrs x l) ds
  | Deriv.group n :: ds => applySubDerivs ops (ops.withGroup x n) ds

end Slogx

namespace Slogx

/-- C1: a record strictly below Error goes to the low handler exactly once
and never to the high handler; a record at or above Error (including
levels above the Error constant) goes to the high handler exactly once and
never to the low handler, over recording stub sinks. -/
theorem handle_routes_by_level (r : Record) (lows highs : List Record) :
    (r.level < LevelError →
      stubLBH.Handle stubOps stubOps r lows highs = (lows ++ [r], highs, none)) ∧
    (LevelError ≤ r.level →
      stubLBH.Handle stubOps stubOps r lows highs = (lows, highs ++ [r], none)) := by
  constructor <;> intro hlvl <;>
    simp [LevelBasedHandler.Handle, stubOps, stubLBH] <;> omega

/-- Witness for C1 at a Debug record and at an Error+4 record. -/
theorem handle_routes_by_level_witness :
    stubLBH.Handle stubOps stubOps ⟨LevelDebug, "d", []⟩ [] [] =
      ([⟨LevelDebug, "d", []⟩], [], none) ∧
    stubLBH.Handle stubOps stubOps ⟨LevelError + 4, "c", []⟩ [] [] =
      ([], [⟨LevelError + 4, "c", []⟩], none) :=
  ⟨(handle_routes_by_level ⟨LevelDebug, "d", []⟩ [] []).1 (by decide),
   (handle_routes_by_level ⟨LevelError + 4, "c", []⟩ [] []).2 (by decide)⟩

/-- C2: for every router and level, Enabled returns exactly the enabled
answer of the sink that the Handle routing rule selects for that level, so
enablement-check routing and handle-dispatch routing consult the same
sink. -/
theorem enabled_consistent_with_handle {H₁ σ₁ H₂ σ₂ : Type}
    (ops₁ : HandlerOps H₁ σ₁) (ops₂ : HandlerOps H₂ σ₂)
    (h : LevelBasedHandler H₁ H₂) (level : Int) :
    h.Enabled ops₁ ops₂ level =
      (match handleSelects level with
       | Sink.high => ops₂.enabled h.ErrorHandler level
       | Sink.low => ops₁.enabled h.LowLevelHandler level) := by
  by_cases hc : LevelError ≤ level <;>
    simp [LevelBasedHandler.Enabled, handleSelects, LevelBasedHandler.Handle,
      stubOps, stubLBH, hc]

/-- C3: with a user ReplaceAttr f in the base options, an Error record's
attribute reaches the high sink passed through f first and then recolored
red exactly when its key after f is "err" or "error" (so renaming away
from those keys disables the highlight), while an Info record's attribute
reaches the low sink passed through f only, with no recoloring. -/
theorem user_replace_then_recolor (base : Options)
    (f : List String → Attr → Attr) (hb : base.ReplaceAttr = some f)
    (m : String) (a : Attr) :
    ((New [some base]).handler.Handle tintOps tintOps ⟨LevelError, m, [a]⟩ [] [] =
      ([], [⟨LevelError, m,
        [if (f [] a).key = "err" ∨ (f [] a).key = "error"
         then tintAttr 9 (f [] a) else f [] a], true⟩], none)) ∧
    ((New [some base]).handler.Handle tintOps tintOps ⟨LevelInfo, m, [a]⟩ [] [] =
      ([⟨LevelInfo, m, [f [] a], false⟩], [], none)) := by
  constructor <;>
    simp [New, LevelBasedHandler.Handle, tintOps, tintNewHandler,
      errReplaceAttr, applyReplace, hb, LevelError, LevelInfo]

/-- Witness for C3 with the identity user function and an attribute keyed
"err": the high sink receives it recolored, the low sink uncolored. -/
theorem user_replace_then_recolor_witness :
    ((New [some { Options.zero with ReplaceAttr := some (fun _ a => a) }]).handler.Handle
        tintOps tintOps ⟨LevelError, "m", [⟨"err", AttrValue.str "boom"⟩]⟩ [] [] =
      ([], [⟨LevelError, "m", [⟨"err", AttrValue.colored 9 (AttrValue.str "boom")⟩], true⟩],
        none)) ∧
    ((New [some { Options.zero with ReplaceAttr := some (fun _ a => a) }]).handler.Handle
        tintOps tintOps ⟨LevelInfo, "m", [⟨"err", AttrValue.str "boom"⟩]⟩ [] [] =
      ([⟨LevelInfo, "m", [⟨"err", AttrValue.str "boom"⟩], false⟩], [], none)) := by
  have h := user_replace_then_recolor
    { Options.zero with ReplaceAttr := some (fun _ a => a) }
    (fun _ a => a) rfl "m" ⟨"err", AttrValue.str "boom"⟩
  simpa [tintAttr] using h

/-- C4: New derives the low handler's options as the base with AddSource
forced false, the high handler's options keep every base field except
AddSource (forced true) and ReplaceAttr (wrapped), and both handlers write
to standard error, for every base configuration. -/
theorem new_config_derivation (base : Options) :
    (New [some base]).handler.LowLevelHandler.opts =
      { base with AddSource := false } ∧
    (New [some base]).handler.ErrorHandler.opts.AddSource = true ∧
    (New [some base]).handler.ErrorHandler.opts.Level = base.Level ∧
    (New [some base]).handler.ErrorHandler.opts.NoColor = base.NoColor ∧
    (New [some base]).handler.ErrorHandler.opts.TimeFormat = base.TimeFormat ∧
    (New [some base]).handler.LowLevelHandler.stream = Stream.stderr ∧
    (New [some base]).handler.ErrorHandler.stream = Stream.stderr :=
  ⟨rfl, rfl, rfl, rfl, rfl, rfl, rfl⟩

/-- C5: Handle returns exactly the error produced by the delegate chosen
by the routing rule, unmodified (nil included), with no recovery or
substitution; the operations are total functions, so configuration
copying, WithAttrs and WithGroup cannot fail. -/
theorem handle_propagates_error {H₁ σ₁ H₂ σ₂ : Type}
    (ops₁ : HandlerOps H₁ σ₁) (ops₂ : HandlerOps H₂ σ₂)
    (h : LevelBasedHandler H₁ H₂) (r : Record) (s₁ : σ₁) (s₂ : σ₂) :
    (h.Handle ops₁ ops₂ r s₁ s₂).2.2 =
      if LevelError ≤ r.level then (ops₂.handle h.ErrorHandler r s₂).2
      else (ops₁.handle h.LowLevelHandler r s₁).2 := by
  by_cases hc : LevelError ≤ r.level <;> simp [LevelBasedHandler.Handle, hc]

/-- C6: WithAttrs and WithGroup each build a new router whose delegates
are the receiver's delegates derived with the same attribute list or group
name, the receiver's fields are untouched, and the receiver's Handle
output on any record is the same function of its original fields after the
derivation as before. -/
theorem with_derivations_fresh {H₁ σ₁ H₂ σ₂ : Type}
    (ops₁ : HandlerOps H₁ σ₁) (ops₂ : HandlerOps H₂ σ₂)
    (h : LevelBasedHandler H₁ H₂) (attrs : List Attr) (name : String)
    (r : Record) (s₁ : σ₁) (s₂ : σ₂) :
    (h.WithAttrs ops₁ ops₂ attrs).LowLevelHandler =
      ops₁.withAttrs h.LowLevelHandler attrs ∧
    (h.WithAttrs ops₁ ops₂ attrs).ErrorHandler =
      ops₂.withAttrs h.ErrorHandler attrs ∧
    (h.WithGroup ops₁ ops₂ name).LowLevelHandler =
      ops₁.withGroup h.LowLevelHandler name ∧
    (h.WithGroup ops₁ ops₂ name).ErrorHandler =
      ops₂.withGroup h.ErrorHandler name ∧
    h = ⟨h.LowLevelHandler, h.ErrorHandler⟩ ∧
    h.Handle ops₁ ops₂ r s₁ s₂ =
      (⟨h.LowLevelHandler, h.ErrorHandler⟩ :
        LevelBasedHandler H₁ H₂).Handle ops₁ ops₂ r s₁ s₂ :=
  ⟨rfl, rfl, rfl, rfl, rfl, rfl⟩

/-- C7: the configuration is copied by value at construction: the logger
built before the caller mutates their options object is the same logger
whatever the mutation produced. -/
theorem options_copied_by_value (base m₁ m₂ : Options) :
    (buildThenMutate base m₁).1 = (buildThenMutate base m₂).1 ∧
    (buildThenMutate base m₁).1 = New [some base] :=
  ⟨rfl, rfl⟩

/-- C8: InitDefault returns exactly the logger New builds for the same
options and installs that logger as the process-wide default;
installation is last-writer-wins and there is no unset: after any install
the default is never empty. -/
theorem initdefault_builds_and_installs (opts : List (Option Options))
    (g : GlobalState) (l₁ l₂ : Logger) :
    (InitDefault opts g).1 = New opts ∧
    (InitDefault opts g).2 = slogSetDefault (New opts) g ∧
    (InitDefault opts g).2.defaultLogger = some (New opts) ∧
    slogSetDefault l₂ (slogSetDefault l₁ g) = slogSetDefault l₂ g ∧
    (slogSetDefault l₁ g).defaultLogger ≠ none :=
  ⟨rfl, rfl, rfl, rfl, by simp [slogSetDefault]⟩

/-- C9: New with no arguments builds a logger (construction is a total
function, so it cannot fail) that emits at Debug, Info, Warn and Error
without error. -/
theorem new_no_args_usable (s : SinkStates) :
    ((New []).log LevelDebug "debug" [] s).2 = none ∧
    ((New []).log LevelInfo "info" [] s).2 = none ∧
    ((New []).log LevelWarn "warn" [] s).2 = none ∧
    ((New []).log LevelError "error" [] s).2 = none :=
  ⟨rfl, rfl, rfl, rfl⟩

/-- C10: any finite sequence of WithAttrs / WithGroup calls yields again a
LevelBasedHandler whose delegates are the originals decorated step by
step, and whose routing keeps the fixed Error threshold: records below
Error never touch the high sink state, records at or above Error never
touch the low sink state, and Enabled consults the delegate selected by
the same threshold. -/
theorem routing_preserved_by_derivation {H₁ σ₁ H₂ σ₂ : Type}
    (ops₁ : HandlerOps H₁ σ₁) (ops₂ : HandlerOps H₂ σ₂)
    (h : LevelBasedHandler H₁ H₂) (ds : List Deriv) (r : Record)
    (s₁ : σ₁) (s₂ : σ₂) (level : Int) :
    applyDerivs ops₁ ops₂ h ds =
      ⟨applySubDerivs ops₁ h.LowLevelHandler ds,
       applySubDerivs ops₂ h.ErrorHandler ds⟩ ∧
    (r.level < LevelError →
      ((applyDerivs ops₁ ops₂ h ds).Handle ops₁ ops₂ r s₁ s₂).2.1 = s₂) ∧
    (LevelError ≤ r.level →
      ((applyDerivs ops₁ ops₂ h ds).Handle ops₁ ops₂ r s₁ s₂).1 = s₁) ∧
    ((applyDerivs ops₁ ops₂ h ds).Enabled ops₁ ops₂ level =
      if LevelError ≤ level
      then ops₂.enabled (applyDerivs ops₁ ops₂ h ds).ErrorHandler level
      else ops₁.enabled (applyDerivs ops₁ ops₂ h ds).LowLevelHandler level) := by
  have hshape : ∀ (x : LevelBasedHandler H₁ H₂) (l : List Deriv),
      applyDerivs ops₁ ops₂ x l =
        ⟨applySubDerivs ops₁ x.LowLevelHandler l,
         applySubDerivs ops₂ x.ErrorHandler l⟩ := by
    intro x l
    induction l generalizing x with
    | nil => simp [applyDerivs, applySubDerivs]
    | cons d ds ih =>
      cases d <;>
        simp [applyDerivs, applySubDerivs, ih, LevelBasedHandler.WithAttrs,
          LevelBasedHandler.WithGroup]
  refine ⟨hshape h ds, ?_, ?_, ?_⟩
  · intro hlvl
    have hnot : ¬ LevelError ≤ r.level := by omega
    simp [LevelBasedHandler.Handle, hnot]
  · intro hlvl
    simp [LevelBasedHandler.Handle, hlvl]
  · by_cases hc : LevelError ≤ level <;> simp [LevelBasedHandler.Enabled, hc]

/-- Witness for C10: a two-step derivation over recording stubs, routing a
Warn record around the high sink and an Error record around the low
sink. -/
theorem routing_preserved_by_derivation_witness :
    (applyDerivs stubOps stubOps stubLBH [Deriv.attrs [], Deriv.group "g"] =
      ⟨applySubDerivs stubOps () [Deriv.attrs [], Deriv.group "g"],
       applySubDerivs stubOps () [Deriv.attrs [], Deriv.group "g"]⟩) ∧
    ((applyDerivs stubOps stubOps stubLBH [Deriv.attrs [], Deriv.group "g"]).Handle
        stubOps stubOps ⟨LevelWarn, "w", []⟩ [] []).2.1 = [] ∧
    ((applyDerivs stubOps stubOps stubLBH [Deriv.attrs [], Deriv.group "g"]).Handle
        stubOps stubOps ⟨LevelError, "e", []⟩ [] []).1 = [] ∧
    ((applyDerivs stubOps stubOps stubLBH [Deriv.attrs [], Deriv.group "g"]).Enabled
        stubOps stubOps LevelInfo =
      if LevelError ≤ LevelInfo
      then stubOps.enabled
        (applyDerivs stubOps stubOps stubLBH [Deriv.attrs [], Deriv.group "g"]).ErrorHandler
        LevelInfo
      else stubOps.enabled
        (applyDerivs stubOps stubOps stubLBH [Deriv.attrs [], Deriv.group "g"]).LowLevelHandler
        LevelInfo) :=
  ⟨(routing_preserved_by_derivation stubOps stubOps stubLBH
      [Deriv.attrs [], Deriv.group "g"] ⟨LevelWarn, "w", []⟩ [] [] LevelInfo).1,
   (routing_preserved_by_derivation stubOps stubOps stubLBH
      [Deriv.attrs [], Deriv.group "g"] ⟨LevelWarn, "w", []⟩ [] [] LevelInfo).2.1 (by decide),
   (routing_preserved_by_derivation stubOps stubOps stubLBH
      [Deriv.attrs [], Deriv.group "g"] ⟨LevelError, "e", []⟩ [] [] LevelInfo).2.2.1 (by decide),
   (routing_preserved_by_derivation stubOps stubOps stubLBH
      [Deriv.attrs [], Deriv.group "g"] ⟨LevelWarn, "w", []⟩ [] [] LevelInfo).2.2.2⟩

end Slogx
